import Mathlib

/-!
Verification development for the Shopify store scraper API route.

The source is a single Next.js API handler (`pages/api/scrape`-style file)
built from `handler`, `fetchStoreInfo`, `fetchProducts`, `fetchCollections`,
`fetchBlogs` and `fetchArticles`.  Network fetches (axios) are modelled by a
`ScrapeEnv` record mapping each upstream endpoint to its outcome: a fetch
either throws (`Except.error ()`, covering network errors and non-2xx
statuses) or returns a parsed body.  Parsed HTML documents (cheerio) are
modelled by the projections the code queries: a `Page` holds the results of
the selector queries performed on the homepage, an `Anchor` is an `<a>`
element with its `href` attribute and visible text, and an `Elem` is a
markup element with its tag name and text content in document order.

JavaScript string operations used by the code (`split`, `trim`, `substring`,
`indexOf`, `includes`, `startsWith`, and the first-match regex scans for
social links) are given executable structural-recursion implementations over
`List Char` so that every concrete instance reduces in the kernel.
-/

/-! ## JavaScript string primitives -/

/-- Does the second list start with the first (the pattern)? -/
def startsWithL : List Char → List Char → Bool
  | [], _ => true
  | _ :: _, [] => false
  | p :: ps, c :: cs => p == c && startsWithL ps cs

/-- JS `s.startsWith(pat)`. -/
def strStartsWith (s pat : String) : Bool :=
  startsWithL pat.toList s.toList

/-- Scan for an occurrence of `pat` anywhere in the list. -/
def containsL (pat : List Char) : List Char → Bool
  | [] => startsWithL pat []
  | c :: cs => startsWithL pat (c :: cs) || containsL pat cs

/-- JS `s.includes(pat)`. -/
def strContains (s pat : String) : Bool :=
  containsL pat.toList s.toList

/-- Fuel-driven splitter: splits on each non-overlapping occurrence of `sep`
(`sep` non-empty), accumulating the current fragment reversed in `acc`.
The fuel is initialised to the length of the scanned list, which suffices
because every step consumes at least one character. -/
def splitAux (sep : List Char) : Nat → List Char → List Char → List (List Char)
  | _, acc, [] => [acc.reverse]
  | 0, acc, rest => [acc.reverse ++ rest]
  | fuel + 1, acc, c :: cs =>
      if startsWithL sep (c :: cs) then
        acc.reverse :: splitAux sep fuel [] ((c :: cs).drop sep.length)
      else
        splitAux sep fuel (c :: acc) cs

/-- JS `s.split(sep)` for a non-empty string separator (the code never
splits on the empty string). -/
def strSplitOn (s sep : String) : List String :=
  if sep = "" then [s]
  else (splitAux sep.toList s.toList.length [] s.toList).map String.mk

/-- JS `s.trim()` (ASCII whitespace at both ends). -/
def jsTrim (s : String) : String :=
  String.mk (((s.toList.dropWhile Char.isWhitespace).reverse.dropWhile
    Char.isWhitespace).reverse)

/-- JS `s.substring(0, n)`. -/
def strTake (s : String) (n : Nat) : String :=
  String.mk (s.toList.take n)

/-- Index search: position of the first occurrence of `pat`, else `-1`. -/
def idxAux (pat : List Char) : Nat → List Char → Int
  | i, [] => if pat.isEmpty then Int.ofNat i else -1
  | i, c :: cs =>
      if startsWithL pat (c :: cs) then Int.ofNat i else idxAux pat (i + 1) cs

/-- JS `s.indexOf(pat)`. -/
def strIndexOf (s pat : String) : Int :=
  idxAux pat.toList 0 s.toList

/-- JS `s.length` as an integer, for substring arithmetic. -/
def strLen (s : String) : Int :=
  Int.ofNat s.toList.length

/-- JS `s.substring(a, b)`: both indices are clamped into `[0, length]` and
swapped when out of order. -/
def jsSubstring (s : String) (a b : Int) : String :=
  let n := strLen s
  let a' := min (max a 0) n
  let b' := min (max b 0) n
  let lo := (min a' b').toNat
  let hi := (max a' b').toNat
  String.mk ((s.toList.take hi).drop lo)

/-! ## Data model: dynamic records and parsed markup -/

/-- Field values of the dynamically typed JSON records the scraper handles.
Nested structure inside upstream records is never inspected by the code, so
an opaque scalar universe suffices. -/
inductive FVal where
  | s (v : String)
  | n (v : Int)
  | b (v : Bool)
deriving DecidableEq, Repr

/-- A JavaScript object as an association list of its own properties in
insertion order (JS objects cannot carry duplicate keys). -/
abbrev Rec := List (String × FVal)

/-- JS property read `r[k]`: the value at key `k`, if present. -/
def lookupField : Rec → String → Option FVal
  | [], _ => none
  | p :: r, k => if p.1 = k then some p.2 else lookupField r k

/-- JS property write `r[k] = v`: replace in place, or append a new key. -/
def setField : Rec → String → FVal → Rec
  | [], k, v => [(k, v)]
  | p :: r, k, v => if p.1 = k then (k, v) :: r else p :: setField r k v

/-- JS `Object.assign(target, src)`: copy every property of `src` onto
`target` in order, overwriting existing keys. -/
def objAssign (target src : Rec) : Rec :=
  src.foldl (fun t p => setField t p.1 p.2) target

/-- JS string interpolation of a field value (`template literal`). -/
def jsToString : FVal → String
  | .s v => v
  | .n v => toString v
  | .b true => "true"
  | .b false => "false"

/-- The `handle` property of a record interpolated into a URL: a missing
property interpolates as `"undefined"`. -/
def handleOf (r : Rec) : String :=
  match lookupField r "handle" with
  | some v => jsToString v
  | none => "undefined"

/-- An `<a>` element as queried by cheerio: `href` attribute and visible
text. -/
structure Anchor where
  href : String
  text : String
deriving DecidableEq, Repr

/-- A markup element as queried by cheerio inside article content: tag name
and concatenated descendant text, listed in document order. -/
structure Elem where
  tag : String
  textContent : String
deriving DecidableEq, Repr

/-- An article from the articles endpoint.  `fields` holds every property
other than `content`; `content` models the rich-markup field: `none` when
the property is absent or the empty string (both falsy in the code's
`if (article.content)` check), `some elems` when a non-empty markup string
is present, recorded as its parsed elements in document order. -/
structure Article where
  fields : Rec
  content : Option (List Elem)
deriving DecidableEq, Repr

/-- The homepage document, recorded as the results of the cheerio selector
queries and raw-text regex searches `fetchStoreInfo` performs on it.
`addressRegexMatch`, `emailMatch` and `phoneMatch` are the first matches of
the corresponding regexes over `footerText` resp. the raw HTML (the regex
engine for these three heuristic fields is treated as part of the parsed
input; no claim depends on them).  `anchors` lists every `<a>` element of
the document, used by the blog HTML fallback. -/
structure Page where
  titleText : String
  ogSiteName : Option String
  ogImage : Option String
  headerImgSrc : Option String
  faviconHref : Option String
  footerAddressText : Option String
  footerText : String
  addressRegexMatch : Option String
  emailMatch : Option String
  phoneMatch : Option String
  rawHtml : String
  anchors : List Anchor

/-- Store metadata assembled from the homepage. -/
structure StoreInfo where
  name : String
  logo : String
  favicon : String
  address : String
  email : String
  phone : String
  socialLinks : List (String × String)
deriving DecidableEq, Repr

/-- The default record returned when fetching or parsing the homepage
throws. -/
def defaultStoreInfo : StoreInfo :=
  { name := "Unknown Store", logo := "", favicon := "", address := ""
    email := "", phone := "", socialLinks := [] }

/-- Outcomes of every upstream fetch a scrape can perform, keyed by
endpoint.  `Except.error ()` is an axios throw (network error or non-2xx
status); `Except.ok` carries the parsed body, with `none` standing for a
body on which the code's `response.data && response.data.X` guard fails.
The homepage is fetched at the same URL by `fetchStoreInfo` and by the
`fetchBlogs` HTML fallback, so both read the `homepage` field. -/
structure ScrapeEnv where
  homepage : Except Unit Page
  productsJson : Except Unit (Option (List Rec))
  collectionsAllJson : Except Unit (Option (List Rec))
  collectionsJson : Except Unit (Option (List Rec))
  collectionDetail : String → Except Unit (Option Rec)
  collectionsPage : Except Unit (List Anchor)
  blogsJson : Except Unit (Option (List Rec))
  articlesJson : String → Except Unit (Option (List Article))

/-! ## Social link extraction (`fetchStoreInfo`, lines 140-156) -/

/-- Character class `[^"'\s]` of the social-link regexes. -/
def isUrlChar (c : Char) : Bool :=
  !(c == '"' || c == '\'' || c.isWhitespace)

/-- First match of the regex `<pat>[^"'\s]+` (literal prefix `pat` followed
by a non-empty greedy run of URL characters), scanning left to right. -/
def scanMatch (pat : List Char) : List Char → Option String
  | [] => none
  | c :: cs =>
      if startsWithL pat (c :: cs) then
        let run := ((c :: cs).drop pat.length).takeWhile isUrlChar
        if run.isEmpty then scanMatch pat cs
        else some (String.mk (pat ++ run))
      else scanMatch pat cs

/-- The six platform patterns, in the order the code checks them. -/
def socialPlatforms : List (String × String) :=
  [("facebook", "facebook.com/"), ("instagram", "instagram.com/"),
   ("twitter", "twitter.com/"), ("pinterest", "pinterest.com/"),
   ("youtube", "youtube.com/"), ("tiktok", "tiktok.com/@")]

/-- Build `storeInfo.socialLinks` from the raw homepage HTML: for each
platform in order, the first regex match, prefixed with `https://` when the
match does not start with `http`. -/
def extractSocialLinks (html : String) : List (String × String) :=
  socialPlatforms.foldl
    (fun acc p =>
      match scanMatch p.2.toList html.toList with
      | some url =>
          acc ++ [(p.1, if strStartsWith url "http" then url else "https://" ++ url)]
      | none => acc)
    []

/-! ## `fetchStoreInfo` (lines 59-172) -/

/-- Store info collector: on a successful homepage fetch, extract name,
logo, favicon, address, email, phone and social links exactly as the code
does; on a throw anywhere, collapse to `defaultStoreInfo`. -/
def fetchStoreInfo (storeUrl : String) (env : ScrapeEnv) : StoreInfo :=
  match env.homepage with
  | .error _ => defaultStoreInfo
  | .ok page =>
      let name0 := jsTrim ((strSplitOn page.titleText "|").headD "")
      let name := if name0 = "" then page.ogSiteName.getD "" else name0
      let logo0 := page.ogImage.getD ""
      let logo :=
        if logo0 = "" then
          let logoImg := page.headerImgSrc.getD ""
          if logoImg ≠ "" then
            if strStartsWith logoImg "http" then logoImg else storeUrl ++ logoImg
          else ""
        else logo0
      let favicon :=
        let f := page.faviconHref.getD ""
        if f ≠ "" then
          if strStartsWith f "http" then f else storeUrl ++ f
        else ""
      let address :=
        match page.footerAddressText with
        | some t => jsTrim t
        | none =>
            match page.addressRegexMatch with
            | some m =>
                let idx := strIndexOf page.footerText m
                jsTrim (jsSubstring page.footerText (max 0 (idx - 100))
                  (min (strLen page.footerText) (idx + 100)))
            | none => ""
      let email := page.emailMatch.getD ""
      let phone := page.phoneMatch.getD ""
      { name, logo, favicon, address, email, phone
        socialLinks := extractSocialLinks page.rawHtml }

/-! ## `fetchProducts` (lines 174-208) -/

/-- Product collector: `products.json` first; on a throw, the
`collections/all.json` body's `products`; empty list when a body lacks the
`products` field or both fetches throw. -/
def fetchProducts (env : ScrapeEnv) : List Rec :=
  match env.productsJson with
  | .ok (some products) => products
  | .ok none => []
  | .error _ =>
      match env.collectionsAllJson with
      | .ok (some products) => products
      | .ok none => []
      | .error _ => []

/-! ## `fetchCollections` (lines 210-287) -/

/-- Enrich one collection with its per-collection detail fetch: merge the
detail body's `collection` object onto the base record; a throw or a body
without `collection` leaves the base record untouched. -/
def enrichCollection (env : ScrapeEnv) (collection : Rec) : Rec :=
  match env.collectionDetail (handleOf collection) with
  | .ok (some detail) => objAssign collection detail
  | .ok none => collection
  | .error _ => collection

/-- Handle derivation of the collections HTML fallback:
`href.split('/collections/')[1].split('/')[0]`. -/
def collHandleOf (href : String) : String :=
  (strSplitOn ((strSplitOn href "/collections/").getD 1 "") "/").headD ""

/-- The record pushed for a scraped collection anchor. -/
def collRec (storeUrl : String) (i : Nat) (handle title href : String) : Rec :=
  [("id", .s (toString i)), ("handle", .s handle), ("title", .s title),
   ("url", .s (if strStartsWith href "http" then href else storeUrl ++ href))]

/-- Body of the collections-fallback `.each` callback at index `i`. -/
def collStep (storeUrl : String) (acc : List Rec) (i : Nat) (a : Anchor) : List Rec :=
  if a.href != "" && !strContains a.href "/products/"
      && !strContains a.href "/collections/all" then
    let handle := collHandleOf a.href
    if handle != "" then
      let title := jsTrim a.text
      let existing := acc.find? (fun c => decide (lookupField c "handle" = some (.s handle)))
      if existing.isNone && title != "" then
        acc ++ [collRec storeUrl i handle title a.href]
      else acc
    else acc
  else acc

/-- Cheerio `.each` over a selected anchor list: fold the callback with the
running element index. -/
def scanAnchors (step : List Rec → Nat → Anchor → List Rec) :
    Nat → List Rec → List Anchor → List Rec
  | _, acc, [] => acc
  | i, acc, a :: rest => scanAnchors step (i + 1) (step acc i a) rest

/-- Collections HTML fallback: scan the anchors of the collections index
page selected by `a[href*="/collections/"]`. -/
def collectionsFromHtml (storeUrl : String) (anchors : List Anchor) : List Rec :=
  scanAnchors (collStep storeUrl) 0 []
    (anchors.filter (fun a => strContains a.href "/collections/"))

/-- Collection collector: `collections.json` with per-collection
enrichment; on a throw, scrape the collections index page; empty list when
the body lacks `collections` or both attempts throw. -/
def fetchCollections (storeUrl : String) (env : ScrapeEnv) : List Rec :=
  match env.collectionsJson with
  | .ok (some collections) => collections.map (enrichCollection env)
  | .ok none => []
  | .error _ =>
      match env.collectionsPage with
      | .ok anchors => collectionsFromHtml storeUrl anchors
      | .error _ => []

/-! ## `fetchBlogs` (lines 289-348) -/

/-- The record pushed for a scraped blog anchor. -/
def blogRec (storeUrl : String) (i : Nat) (handle title href : String) : Rec :=
  [("id", .s ("blog_" ++ toString i)), ("handle", .s handle), ("title", .s title),
   ("url", .s (if strStartsWith href "http" then href else storeUrl ++ href))]

/-- Body of the blogs-fallback `.each` callback at index `i`. -/
def blogStep (storeUrl : String) (acc : List Rec) (i : Nat) (a : Anchor) : List Rec :=
  if a.href != "" && !strContains a.href "/blogs/news/tagged/" then
    let parts := strSplitOn a.href "/blogs/"
    if parts.length > 1 then
      let handle := (strSplitOn (parts.getD 1 "") "/").headD ""
      if handle != "" then
        let title := jsTrim a.text
        let existing := acc.find? (fun b => decide (lookupField b "handle" = some (.s handle)))
        if existing.isNone && title != "" then
          acc ++ [blogRec storeUrl i handle title a.href]
        else acc
      else acc
    else acc
  else acc

/-- Blogs HTML fallback: scan the homepage anchors selected by
`a[href*="/blogs/"]`. -/
def blogsFromHtml (storeUrl : String) (anchors : List Anchor) : List Rec :=
  scanAnchors (blogStep storeUrl) 0 []
    (anchors.filter (fun a => strContains a.href "/blogs/"))

/-- Blog collector: `blogs.json`; on a throw, scrape the homepage; empty
list when the body lacks `blogs` or both attempts throw. -/
def fetchBlogs (storeUrl : String) (env : ScrapeEnv) : List Rec :=
  match env.blogsJson with
  | .ok (some blogs) => blogs
  | .ok none => []
  | .error _ =>
      match env.homepage with
      | .ok page => blogsFromHtml storeUrl page.anchors
      | .error _ => []

/-! ## `fetchArticles` (lines 350-382) -/

/-- Text of the first `<p>` element of parsed article content
(`$('p').first().text()`); the empty string when no paragraph exists. -/
def firstPText (elems : List Elem) : String :=
  match elems.find? (fun e => decide (e.tag = "p")) with
  | some e => e.textContent
  | none => ""

/-- Per-article summary transform: when content is present, set
`summary := $('p').first().text().trim().substring(0, 200) + '...'` and
delete `content`; otherwise leave the article untouched. -/
def processArticle (a : Article) : Article :=
  match a.content with
  | none => a
  | some elems =>
      { fields := setField a.fields "summary"
          (.s (strTake (jsTrim (firstPText elems)) 200 ++ "..."))
        content := none }

/-- Article collector for one blog handle: the articles endpoint's list
with the summary transform applied to each entry; empty list when the body
lacks `articles` or the fetch throws. -/
def fetchArticles (env : ScrapeEnv) (blogHandle : String) : List Article :=
  match env.articlesJson blogHandle with
  | .ok (some articles) => articles.map processArticle
  | .ok none => []
  | .error _ => []

/-! ## `handler` (lines 4-57) -/

/-- The aggregate result object assembled by the handler.  A blog is paired
with the article list the handler assigns to `blog.articles`. -/
structure Aggregate where
  products : List Rec
  collections : List Rec
  blogs : List (Rec × List Article)
  articles : List Article
  storeInfo : StoreInfo
deriving DecidableEq, Repr

/-- The four responses the handler can produce. -/
inductive HandlerResponse where
  | methodNotAllowed
  | missingUrl
  | success (data : Aggregate)
  | scrapeFailure (details : String)
deriving DecidableEq, Repr

/-- Body of the handler's `try` block: run the collectors in sequence, then
fan out to `fetchArticles` per discovered blog, assigning `blog.articles`
and appending each list to the flat `articles` array. -/
def scrapeStore (storeUrl : String) (env : ScrapeEnv) : Aggregate :=
  let storeInfo := fetchStoreInfo storeUrl env
  let products := fetchProducts env
  let collections := fetchCollections storeUrl env
  let blogs := fetchBlogs storeUrl env
  let blogsOut := blogs.map (fun blog => (blog, fetchArticles env (handleOf blog)))
  { products, collections
    blogs := blogsOut
    articles := blogsOut.foldl (fun acc p => acc ++ p.2) []
    storeInfo }

/-- The exported handler: method check, missing-URL check, then the scrape.
Every collector absorbs its own failures, so the embedded scrape is total
and the `catch`-branch response (`scrapeFailure`, the 500 error) is never
produced. -/
def handler (method storeUrl : String) (env : ScrapeEnv) : HandlerResponse :=
  if method ≠ "POST" then .methodNotAllowed
  else if storeUrl = "" then .missingUrl
  else .success (scrapeStore storeUrl env)

/-! ## Candidate view of the HTML-fallback scans

Each `.each` callback splits into a per-anchor candidate (does this anchor
qualify, and with which handle and record?) and a first-occurrence gate on
the handle.  The claim proofs go through this view. -/

/-- Has some already-pushed record claimed this handle? -/
def seenHandle (acc : List Rec) (h : String) : Bool :=
  (acc.find? (fun c => decide (lookupField c "handle" = some (.s h)))).isSome

/-- Candidate of the collections-fallback callback: `some (handle, record)`
when the anchor passes the href filters, derives a non-empty handle and has
non-empty trimmed text. -/
def collCand (storeUrl : String) (i : Nat) (a : Anchor) : Option (String × Rec) :=
  if a.href != "" && !strContains a.href "/products/"
      && !strContains a.href "/collections/all" then
    let handle := collHandleOf a.href
    if handle != "" && jsTrim a.text != "" then
      some (handle, collRec storeUrl i handle (jsTrim a.text) a.href)
    else none
  else none

/-- The handle a collections-fallback anchor would be recorded under,
independent of its scan index. -/
def collKey (a : Anchor) : Option String :=
  if a.href != "" && !strContains a.href "/products/"
      && !strContains a.href "/collections/all" then
    let handle := collHandleOf a.href
    if handle != "" && jsTrim a.text != "" then some handle else none
  else none

/-- Candidate of the blogs-fallback callback. -/
def blogCand (storeUrl : String) (i : Nat) (a : Anchor) : Option (String × Rec) :=
  if a.href != "" && !strContains a.href "/blogs/news/tagged/" then
    let parts := strSplitOn a.href "/blogs/"
    if parts.length > 1 then
      let handle := (strSplitOn (parts.getD 1 "") "/").headD ""
      if handle != "" && jsTrim a.text != "" then
        some (handle, blogRec storeUrl i handle (jsTrim a.text) a.href)
      else none
    else none
  else none

/-- The handle a blogs-fallback anchor would be recorded under. -/
def blogKey (a : Anchor) : Option String :=
  if a.href != "" && !strContains a.href "/blogs/news/tagged/" then
    let parts := strSplitOn a.href "/blogs/"
    if parts.length > 1 then
      let handle := (strSplitOn (parts.getD 1 "") "/").headD ""
      if handle != "" && jsTrim a.text != "" then some handle else none
    else none
  else none

/-- Candidates of an anchor list, with the scan index threaded from `i`. -/
def candsFrom (cand : Nat → Anchor → Option (String × Rec)) :
    Nat → List Anchor → List (Option (String × Rec))
  | _, [] => []
  | i, a :: rest => cand i a :: candsFrom cand (i + 1) rest

/-- First-occurrence fold over a candidate list: push each candidate's
record unless its handle was already pushed. -/
def dedupFold (acc : List Rec) : List (Option (String × Rec)) → List Rec
  | [] => acc
  | none :: cs => dedupFold acc cs
  | some (h, r) :: cs => dedupFold (if seenHandle acc h then acc else acc ++ [r]) cs

/-- The sublist of records carrying handle `h`. -/
def entriesFor (h : String) (l : List Rec) : List Rec :=
  l.filter (fun c => decide (lookupField c "handle" = some (.s h)))

/-- The record of the first candidate with key `h`, if any. -/
def firstWithKey (h : String) : List (Option (String × Rec)) → Option Rec
  | [] => none
  | none :: cs => firstWithKey h cs
  | some (h', r) :: cs => if h' = h then some r else firstWithKey h cs

/-! ## Lemmas about record operations -/

theorem lookupField_setField (r : Rec) (k : String) (v : FVal) (k' : String) :
    lookupField (setField r k v) k' = if k' = k then some v else lookupField r k' := by
  induction r with
  | nil =>
      by_cases h : k' = k <;> simp_all [setField, lookupField, eq_comm]
  | cons p r ih =>
      by_cases hp : p.1 = k <;> by_cases hk : k' = k <;>
        by_cases hpk : p.1 = k' <;>
          simp_all [setField, lookupField]

theorem lookupField_eq_none (r : Rec) (k : String) (h : k ∉ r.map Prod.fst) :
    lookupField r k = none := by
  induction r with
  | nil => rfl
  | cons p r ih =>
      simp only [List.map_cons, List.mem_cons] at h
      push_neg at h
      simp [lookupField, ih h.2, Ne.symm h.1]

theorem lookupField_objAssign (r d : Rec) (k : String)
    (hd : (d.map Prod.fst).Nodup) :
    lookupField (objAssign r d) k =
      match lookupField d k with
      | some v => some v
      | none => lookupField r k := by
  induction d generalizing r with
  | nil => simp [objAssign, lookupField]
  | cons p dtl ih =>
      simp only [List.map_cons, List.nodup_cons] at hd
      have step : objAssign r (p :: dtl) = objAssign (setField r p.1 p.2) dtl := rfl
      rw [step, ih _ hd.2]
      by_cases hk : p.1 = k
      · have hnone : lookupField dtl k = none :=
          lookupField_eq_none _ _ (hk ▸ hd.1)
        simp [hnone, lookupField, hk, lookupField_setField]
      · simp only [lookupField, if_neg hk]
        cases hdt : lookupField dtl k with
        | some v => simp
        | none => simp [lookupField_setField, Ne.symm hk]

/-! ## Lemmas about the HTML-fallback scans -/

theorem collStep_eq (storeUrl : String) (acc : List Rec) (i : Nat) (a : Anchor) :
    collStep storeUrl acc i a =
      match collCand storeUrl i a with
      | none => acc
      | some (h, r) => if seenHandle acc h then acc else acc ++ [r] := by
  unfold collStep collCand seenHandle
  cases h1 : (a.href != "" && !strContains a.href "/products/"
      && !strContains a.href "/collections/all") with
  | false => simp
  | true =>
      simp only [if_pos rfl]
      cases h2 : (collHandleOf a.href != "") with
      | false => simp [h2]
      | true =>
          cases h3 : (jsTrim a.text != "") with
          | false => simp [h2, h3]
          | true =>
              simp only [h2, h3, Bool.and_true, if_pos rfl]
              cases hf : (acc.find? (fun c =>
                  decide (lookupField c "handle" = some (.s (collHandleOf a.href))))) with
              | none => simp [hf]
              | some c => simp [hf]

theorem blogStep_eq (storeUrl : String) (acc : List Rec) (i : Nat) (a : Anchor) :
    blogStep storeUrl acc i a =
      match blogCand storeUrl i a with
      | none => acc
      | some (h, r) => if seenHandle acc h then acc else acc ++ [r] := by
  unfold blogStep blogCand seenHandle
  cases h1 : (a.href != "" && !strContains a.href "/blogs/news/tagged/") with
  | false => simp
  | true =>
      simp only [if_pos rfl]
      by_cases hl : (strSplitOn a.href "/blogs/").length > 1
      · simp only [if_pos hl]
        cases h2 : (((strSplitOn ((strSplitOn a.href "/blogs/").getD 1 "") "/").headD "") != "") with
        | false => simp [h2]
        | true =>
            cases h3 : (jsTrim a.text != "") with
            | false => simp [h2, h3]
            | true =>
                simp only [h2, h3, Bool.and_true, if_pos rfl]
                cases hf : (acc.find? (fun b => decide (lookupField b "handle" =
                    some (.s ((strSplitOn ((strSplitOn a.href "/blogs/").getD 1 "") "/").headD ""))))) with
                | none =>
                    simp only [if_true]
                    rw [hf]
                    simp
                | some c =>
                    simp only [if_true]
                    rw [hf]
                    simp
      · simp [hl]

theorem scanAnchors_eq_dedupFold
    (step : List Rec → Nat → Anchor → List Rec)
    (cand : Nat → Anchor → Option (String × Rec))
    (hstep : ∀ acc i a, step acc i a =
      match cand i a with
      | none => acc
      | some (h, r) => if seenHandle acc h then acc else acc ++ [r]) :
    ∀ (l : List Anchor) (i : Nat) (acc : List Rec),
      scanAnchors step i acc l = dedupFold acc (candsFrom cand i l) := by
  intro l
  induction l with
  | nil => intro i acc; rfl
  | cons a rest ih =>
      intro i acc
      have hl : scanAnchors step i acc (a :: rest)
          = scanAnchors step (i + 1) (step acc i a) rest := rfl
      rw [hl, ih, hstep]
      cases hc : cand i a with
      | none => simp [candsFrom, dedupFold, hc]
      | some p => cases p with
          | mk h r => simp [candsFrom, dedupFold, hc]

theorem seenHandle_append (acc : List Rec) (r : Rec) (h : String) :
    seenHandle (acc ++ [r]) h =
      (seenHandle acc h || decide (lookupField r "handle" = some (.s h))) := by
  induction acc with
  | nil =>
      simp only [List.nil_append, seenHandle, List.find?]
      cases hd : decide (lookupField r "handle" = some (FVal.s h)) <;> simp [hd]
  | cons c acc ih =>
      simp only [List.cons_append, seenHandle, List.find?] at *
      cases hd : decide (lookupField c "handle" = some (FVal.s h)) <;> simp_all

theorem entriesFor_append (h : String) (l1 l2 : List Rec) :
    entriesFor h (l1 ++ l2) = entriesFor h l1 ++ entriesFor h l2 := by
  simp [entriesFor, List.filter_append]

theorem dedupFold_entriesFor (h : String) :
    ∀ (cs : List (Option (String × Rec))) (acc : List Rec),
      (∀ h' r, some (h', r) ∈ cs → lookupField r "handle" = some (.s h')) →
      entriesFor h (dedupFold acc cs) =
        entriesFor h acc ++
          (if seenHandle acc h then [] else (firstWithKey h cs).toList) := by
  intro cs
  induction cs with
  | nil => intro acc _; simp [dedupFold, firstWithKey]
  | cons c cs ih =>
      intro acc hc
      cases c with
      | none =>
          have := ih acc (fun h' r hm => hc h' r (List.mem_cons_of_mem _ hm))
          simpa [dedupFold, firstWithKey] using this
      | some p =>
          cases p with
          | mk h' r =>
              have hr : lookupField r "handle" = some (.s h') :=
                hc h' r (List.mem_cons_self _ _)
              have hcs : ∀ h'' r', some (h'', r') ∈ cs →
                  lookupField r' "handle" = some (.s h'') :=
                fun h'' r' hm => hc h'' r' (List.mem_cons_of_mem _ hm)
              by_cases hh : h' = h
              · subst hh
                cases hs : seenHandle acc h' with
                | true =>
                    have := ih acc hcs
                    simp [dedupFold, hs, firstWithKey, this]
                | false =>
                    have hseen : seenHandle (acc ++ [r]) h' = true := by
                      rw [seenHandle_append, hs, hr]
                      simp
                    have := ih (acc ++ [r]) hcs
                    rw [hseen] at this
                    simp only [dedupFold, hs, if_false, Bool.false_eq_true]
                    rw [this, entriesFor_append]
                    have hone : entriesFor h' [r] = [r] := by
                      simp [entriesFor, hr]
                    simp [hone, firstWithKey]
              · have hflt : entriesFor h [r] = [] := by
                  simp [entriesFor, hr, hh]
                have hseen : seenHandle (acc ++ [r]) h = seenHandle acc h := by
                  rw [seenHandle_append, hr]
                  simp [hh]
                cases hs : seenHandle acc h with
                | true =>
                    cases hsp : seenHandle acc h' with
                    | true =>
                        have := ih acc hcs
                        simp [dedupFold, hsp, firstWithKey, hh, this, hs]
                    | false =>
                        have := ih (acc ++ [r]) hcs
                        rw [hseen, hs] at this
                        simp only [dedupFold, hsp, if_false, Bool.false_eq_true]
                        rw [this, entriesFor_append, hflt]
                        simp [firstWithKey, hh, hs]
                | false =>
                    cases hsp : seenHandle acc h' with
                    | true =>
                        have := ih acc hcs
                        simp [dedupFold, hsp, firstWithKey, hh, this, hs]
                    | false =>
                        have := ih (acc ++ [r]) hcs
                        rw [hseen, hs] at this
                        simp only [dedupFold, hsp, if_false, Bool.false_eq_true]
                        rw [this, entriesFor_append, hflt]
                        simp [firstWithKey, hh, hs]

theorem candsFrom_append (cand : Nat → Anchor → Option (String × Rec))
    (P Q : List Anchor) :
    ∀ i, candsFrom cand i (P ++ Q)
      = candsFrom cand i P ++ candsFrom cand (i + P.length) Q := by
  induction P with
  | nil => intro i; simp [candsFrom]
  | cons a P ih =>
      intro i
      simp only [List.cons_append, candsFrom, List.length_cons, List.append_eq]
      rw [ih (i + 1)]
      have h2 : i + 1 + P.length = i + (P.length + 1) := by omega
      rw [h2]

theorem firstWithKey_append (h : String)
    (cs ds : List (Option (String × Rec))) :
    firstWithKey h (cs ++ ds) =
      match firstWithKey h cs with
      | some r => some r
      | none => firstWithKey h ds := by
  induction cs with
  | nil => simp [firstWithKey]
  | cons c cs ih =>
      cases c with
      | none => simpa [firstWithKey] using ih
      | some p =>
          cases p with
          | mk h' r =>
              by_cases hh : h' = h <;> simp [firstWithKey, hh, ih]

theorem lookupField_collRec_handle (u : String) (i : Nat) (h t href : String) :
    lookupField (collRec u i h t href) "handle" = some (.s h) := by
  have hne : ("id" : String) ≠ "handle" := by decide
  simp [collRec, lookupField, hne]

theorem lookupField_blogRec_handle (u : String) (i : Nat) (h t href : String) :
    lookupField (blogRec u i h t href) "handle" = some (.s h) := by
  have hne : ("id" : String) ≠ "handle" := by decide
  simp [blogRec, lookupField, hne]

theorem lookupField_collRec_id (u : String) (i : Nat) (h t href : String) :
    lookupField (collRec u i h t href) "id" = some (.s (toString i)) := by
  simp [collRec, lookupField]

theorem lookupField_blogRec_id (u : String) (i : Nat) (h t href : String) :
    lookupField (blogRec u i h t href) "id" = some (.s ("blog_" ++ toString i)) := by
  simp [blogRec, lookupField]

theorem collCand_eq_key (u : String) (i : Nat) (a : Anchor) :
    collCand u i a =
      (collKey a).map (fun h => (h, collRec u i h (jsTrim a.text) a.href)) := by
  unfold collCand collKey
  cases h1 : (a.href != "" && !strContains a.href "/products/"
      && !strContains a.href "/collections/all") with
  | false => simp
  | true =>
      simp only [if_pos rfl]
      cases h2 : (collHandleOf a.href != "" && jsTrim a.text != "") <;> simp [h2]

theorem blogCand_eq_key (u : String) (i : Nat) (a : Anchor) :
    blogCand u i a =
      (blogKey a).map (fun h => (h, blogRec u i h (jsTrim a.text) a.href)) := by
  unfold blogCand blogKey
  cases h1 : (a.href != "" && !strContains a.href "/blogs/news/tagged/") with
  | false => simp
  | true =>
      simp only [if_pos rfl]
      by_cases hl : (strSplitOn a.href "/blogs/").length > 1
      · simp only [if_pos hl]
        cases h2 : ((strSplitOn ((strSplitOn a.href "/blogs/").getD 1 "") "/").headD ""
            != "" && jsTrim a.text != "") <;> simp [h2]
      · simp [hl]

theorem mem_candsFrom (cand : Nat → Anchor → Option (String × Rec)) :
    ∀ (l : List Anchor) (i : Nat) (c : Option (String × Rec)),
      c ∈ candsFrom cand i l → ∃ j a, a ∈ l ∧ c = cand j a := by
  intro l
  induction l with
  | nil => intro i c hc; simp [candsFrom] at hc
  | cons a rest ih =>
      intro i c hc
      simp only [candsFrom, List.mem_cons] at hc
      cases hc with
      | inl h => exact ⟨i, a, List.mem_cons_self _ _, h⟩
      | inr h =>
          obtain ⟨j, b, hb, hcb⟩ := ih (i + 1) c h
          exact ⟨j, b, List.mem_cons_of_mem _ hb, hcb⟩

theorem collCand_handle_field (u : String) (i : Nat) (a : Anchor)
    (h : String) (r : Rec) (hc : collCand u i a = some (h, r)) :
    lookupField r "handle" = some (.s h) := by
  rw [collCand_eq_key] at hc
  cases hk : collKey a with
  | none => rw [hk] at hc; simp at hc
  | some h' =>
      rw [hk] at hc
      simp only [Option.map, Option.some.injEq, Prod.mk.injEq] at hc
      obtain ⟨hh, hr⟩ := hc
      subst hh
      rw [← hr]
      exact lookupField_collRec_handle u i h' (jsTrim a.text) a.href

theorem blogCand_handle_field (u : String) (i : Nat) (a : Anchor)
    (h : String) (r : Rec) (hc : blogCand u i a = some (h, r)) :
    lookupField r "handle" = some (.s h) := by
  rw [blogCand_eq_key] at hc
  cases hk : blogKey a with
  | none => rw [hk] at hc; simp at hc
  | some h' =>
      rw [hk] at hc
      simp only [Option.map, Option.some.injEq, Prod.mk.injEq] at hc
      obtain ⟨hh, hr⟩ := hc
      subst hh
      rw [← hr]
      exact lookupField_blogRec_handle u i h' (jsTrim a.text) a.href

theorem collCand_fst (u : String) (i : Nat) (a : Anchor) :
    (collCand u i a).map Prod.fst = collKey a := by
  rw [collCand_eq_key]
  cases collKey a <;> rfl

theorem blogCand_fst (u : String) (i : Nat) (a : Anchor) :
    (blogCand u i a).map Prod.fst = blogKey a := by
  rw [blogCand_eq_key]
  cases blogKey a <;> rfl

theorem collCand_of_key (u : String) (i : Nat) (a : Anchor) (h : String)
    (hk : collKey a = some h) :
    collCand u i a = some (h, collRec u i h (jsTrim a.text) a.href) := by
  rw [collCand_eq_key, hk]
  rfl

theorem blogCand_of_key (u : String) (i : Nat) (a : Anchor) (h : String)
    (hk : blogKey a = some h) :
    blogCand u i a = some (h, blogRec u i h (jsTrim a.text) a.href) := by
  rw [blogCand_eq_key, hk]
  rfl

theorem firstWithKey_candsFrom_none
    (cand : Nat → Anchor → Option (String × Rec)) (key : Anchor → Option String)
    (hk : ∀ i a, (cand i a).map Prod.fst = key a) (h : String) :
    ∀ (P : List Anchor) (i : Nat), (∀ a ∈ P, key a ≠ some h) →
      firstWithKey h (candsFrom cand i P) = none := by
  intro P
  induction P with
  | nil => intro i _; rfl
  | cons a P ih =>
      intro i hP
      have ha : key a ≠ some h := hP a (List.mem_cons_self _ _)
      have hrest : ∀ b ∈ P, key b ≠ some h :=
        fun b hb => hP b (List.mem_cons_of_mem _ hb)
      cases hc : cand i a with
      | none => simpa [candsFrom, firstWithKey, hc] using ih (i + 1) hrest
      | some p =>
          cases p with
          | mk h' r =>
              have hkey : key a = some h' := by rw [← hk i a, hc]; rfl
              have hne : h' ≠ h := fun e => ha (by rw [hkey, e])
              simpa [candsFrom, firstWithKey, hc, hne] using ih (i + 1) hrest

theorem entriesFor_collectionsFromHtml (u : String) (anchors : List Anchor)
    (h : String) :
    entriesFor h (collectionsFromHtml u anchors) =
      (firstWithKey h (candsFrom (collCand u) 0
        (anchors.filter (fun a => strContains a.href "/collections/")))).toList := by
  have hside : ∀ h' r, some (h', r) ∈ candsFrom (collCand u) 0
      (anchors.filter (fun a => strContains a.href "/collections/")) →
      lookupField r "handle" = some (.s h') := by
    intro h' r hm
    obtain ⟨j, a, _, hc⟩ := mem_candsFrom _ _ _ _ hm
    exact collCand_handle_field u j a h' r hc.symm
  unfold collectionsFromHtml
  rw [scanAnchors_eq_dedupFold (collStep u) (collCand u) (collStep_eq u)]
  rw [dedupFold_entriesFor h _ [] hside]
  simp [entriesFor, seenHandle, List.find?]

theorem entriesFor_blogsFromHtml (u : String) (anchors : List Anchor)
    (h : String) :
    entriesFor h (blogsFromHtml u anchors) =
      (firstWithKey h (candsFrom (blogCand u) 0
        (anchors.filter (fun a => strContains a.href "/blogs/")))).toList := by
  have hside : ∀ h' r, some (h', r) ∈ candsFrom (blogCand u) 0
      (anchors.filter (fun a => strContains a.href "/blogs/")) →
      lookupField r "handle" = some (.s h') := by
    intro h' r hm
    obtain ⟨j, a, _, hc⟩ := mem_candsFrom _ _ _ _ hm
    exact blogCand_handle_field u j a h' r hc.symm
  unfold blogsFromHtml
  rw [scanAnchors_eq_dedupFold (blogStep u) (blogCand u) (blogStep_eq u)]
  rw [dedupFold_entriesFor h _ [] hside]
  simp [entriesFor, seenHandle, List.find?]

theorem foldl_append_articles (l : List (Rec × List Article)) :
    ∀ acc : List Article,
      l.foldl (fun acc p => acc ++ p.2) acc = acc ++ (l.map Prod.snd).flatten := by
  induction l with
  | nil => intro acc; simp
  | cons p l ih => intro acc; simp [ih, List.append_assoc]

theorem firstPText_eq_empty (elems : List Elem) (h : ∀ e ∈ elems, e.tag ≠ "p") :
    firstPText elems = "" := by
  unfold firstPText
  have hnone : elems.find? (fun e => decide (e.tag = "p")) = none := by
    rw [List.find?_eq_none]
    intro e he
    simp [h e he]
  rw [hnone]

/-! ## Claim theorems -/

/-- C1: for every scrape request with a non-empty store URL, if every
upstream endpoint fetch fails (homepage, `products.json`,
`collections/all.json`, `collections.json`, the collections index page,
`blogs.json`, and the homepage fallback — the homepage and its fallback are
one endpoint), the handler returns a success result whose aggregate has
empty products, collections, blogs and articles and the default store info
record; the scrape-failure error is never returned in this situation. -/
theorem c1_all_endpoints_fail (storeUrl : String) (env : ScrapeEnv)
    (hurl : storeUrl ≠ "")
    (hhome : env.homepage = .error ())
    (hprod : env.productsJson = .error ())
    (hall : env.collectionsAllJson = .error ())
    (hcoll : env.collectionsJson = .error ())
    (hpage : env.collectionsPage = .error ())
    (hblogs : env.blogsJson = .error ()) :
    handler "POST" storeUrl env =
      .success { products := [], collections := [], blogs := [], articles := []
                 storeInfo := defaultStoreInfo } := by
  unfold handler scrapeStore fetchStoreInfo fetchProducts fetchCollections fetchBlogs
  rw [hhome, hprod, hall, hcoll, hpage, hblogs]
  simp [hurl]

/-- Environment in which every upstream fetch throws. -/
def c1env : ScrapeEnv :=
  { homepage := .error (), productsJson := .error ()
    collectionsAllJson := .error (), collectionsJson := .error ()
    collectionDetail := fun _ => .error (), collectionsPage := .error ()
    blogsJson := .error (), articlesJson := fun _ => .error () }

theorem c1_witness :
    handler "POST" "https://example-store.com" c1env =
      .success { products := [], collections := [], blogs := [], articles := []
                 storeInfo := defaultStoreInfo } :=
  c1_all_endpoints_fail "https://example-store.com" c1env (by decide)
    rfl rfl rfl rfl rfl rfl

/-- C2: when the `products.json` fetch throws, `fetchProducts` falls back
to `collections/all.json`: a successful body with a `products` field of M
items is returned exactly; when both fetches throw, the result is the empty
list.  `fetchProducts` is a total function of the fetch outcomes, so no
exception reaches its caller. -/
theorem c2_products_fallback (env : ScrapeEnv)
    (hfail : env.productsJson = .error ()) :
    (∀ products : List Rec, env.collectionsAllJson = .ok (some products) →
      fetchProducts env = products)
    ∧ (env.collectionsAllJson = .error () → fetchProducts env = []) := by
  constructor
  · intro products hok
    simp [fetchProducts, hfail, hok]
  · intro herr
    simp [fetchProducts, hfail, herr]

/-- The M items served by the all-items fallback endpoint. -/
def c2products : List Rec :=
  [[("id", .n 1), ("title", .s "Widget")], [("id", .n 2), ("title", .s "Gadget")]]

/-- Environment where `products.json` throws but `collections/all.json`
serves `c2products`. -/
def c2env : ScrapeEnv :=
  { c1env with collectionsAllJson := .ok (some c2products) }

theorem c2_witness :
    fetchProducts c2env = c2products ∧ fetchProducts c1env = [] :=
  ⟨(c2_products_fallback c2env rfl).1 c2products rfl,
   (c2_products_fallback c1env rfl).2 rfl⟩

/-- C3: when the collections listing returns K collections and exactly one
per-collection detail fetch throws while the others succeed, the collector
returns K entries in listing order; the failing entry is exactly its base
record (no detail fields), and every other entry is the detail body merged
onto the base record, a base field surviving exactly when the detail body
omits that key (the detail body, being a JS object, has no duplicate
keys). -/
theorem c3_detail_failure_isolated (storeUrl : String) (env : ScrapeEnv)
    (cs : List Rec) (j : Nat) (hj : j < cs.length)
    (hlist : env.collectionsJson = .ok (some cs))
    (hfail : env.collectionDetail (handleOf cs[j]) = .error ())
    (hok : ∀ i, (hi : i < cs.length) → i ≠ j →
      ∃ d, env.collectionDetail (handleOf cs[i]) = .ok (some d)
        ∧ (d.map Prod.fst).Nodup) :
    (fetchCollections storeUrl env).length = cs.length
    ∧ (∀ hj2 : j < (fetchCollections storeUrl env).length,
        (fetchCollections storeUrl env)[j] = cs[j])
    ∧ (∀ i, (hi : i < cs.length) →
        (hi2 : i < (fetchCollections storeUrl env).length) → i ≠ j →
        ∀ d, env.collectionDetail (handleOf cs[i]) = .ok (some d) →
          (fetchCollections storeUrl env)[i] = objAssign cs[i] d
          ∧ ((d.map Prod.fst).Nodup → ∀ k,
              lookupField (objAssign cs[i] d) k =
                match lookupField d k with
                | some v => some v
                | none => lookupField cs[i] k)) := by
  have hfc : fetchCollections storeUrl env = cs.map (enrichCollection env) := by
    simp [fetchCollections, hlist]
  refine ⟨by simp [hfc], ?_, ?_⟩
  · intro hj2
    simp only [hfc, List.getElem_map]
    unfold enrichCollection
    rw [hfail]
  · intro i hi hi2 hne d hd
    constructor
    · simp only [hfc, List.getElem_map]
      unfold enrichCollection
      rw [hd]
    · intro hnd k
      exact lookupField_objAssign _ _ _ hnd

/-- Collections listing used by the C3 witness. -/
def c3base0 : Rec := [("id", .n 10), ("handle", .s "summer"), ("title", .s "Old")]

/-- Second base collection of the C3 witness. -/
def c3base1 : Rec := [("id", .n 11), ("handle", .s "winter"), ("title", .s "Old")]

/-- Detail body served for the `winter` collection in the C3 witness. -/
def c3detail1 : Rec := [("title", .s "Winter Sale"), ("products_count", .n 4)]

/-- Environment where the listing succeeds, the `summer` detail fetch
throws and the `winter` detail fetch succeeds. -/
def c3env : ScrapeEnv :=
  { c1env with
    collectionsJson := .ok (some [c3base0, c3base1])
    collectionDetail := fun h => if h = "winter" then .ok (some c3detail1) else .error () }

theorem c3_witness :
    (fetchCollections "https://s.example" c3env).length = 2
    ∧ fetchCollections "https://s.example" c3env
        = [c3base0, objAssign c3base1 c3detail1]
    ∧ lookupField (objAssign c3base1 c3detail1) "title" = some (.s "Winter Sale")
    ∧ lookupField (objAssign c3base1 c3detail1) "handle" = some (.s "winter") := by
  refine ⟨(c3_detail_failure_isolated "https://s.example" c3env
      [c3base0, c3base1] 0 (by decide) rfl rfl ?hok).1, by decide, by decide, by decide⟩
  intro i hi hne
  have hilt : i < 2 := by simpa using hi
  have hi1 : i = 1 := by omega
  subst hi1
  exact ⟨c3detail1, rfl, by decide⟩

/-- C4: `fetchArticles` maps the summary transform over the endpoint's
articles.  An article with non-empty content gets `summary` set to the
trimmed text of the first paragraph element of its parsed content,
truncated to 200 characters with the ellipsis marker appended, loses its
`content` field, and keeps every other field; an article with absent or
empty content is returned unmodified, with no summary added. -/
theorem c4_summary_transform (env : ScrapeEnv) (blogHandle : String)
    (articles : List Article)
    (hbody : env.articlesJson blogHandle = .ok (some articles)) :
    fetchArticles env blogHandle = articles.map processArticle
    ∧ (∀ a : Article, ∀ elems : List Elem, a.content = some elems →
        (processArticle a).content = none
        ∧ lookupField (processArticle a).fields "summary"
            = some (.s (strTake (jsTrim (firstPText elems)) 200 ++ "..."))
        ∧ ∀ k, k ≠ "summary" →
            lookupField (processArticle a).fields k = lookupField a.fields k)
    ∧ (∀ a : Article, a.content = none → processArticle a = a) := by
  refine ⟨by simp [fetchArticles, hbody], ?_, ?_⟩
  · intro a elems hc
    unfold processArticle
    rw [hc]
    refine ⟨rfl, ?_, ?_⟩
    · simp [lookupField_setField]
    · intro k hk
      simp [lookupField_setField, hk]
  · intro a hc
    unfold processArticle
    rw [hc]

/-- Article with rich content whose first paragraph is not the first
element. -/
def c4artA : Article :=
  ⟨[("title", .s "Post")], some [⟨"div", "intro"⟩, ⟨"p", " Hello world "⟩]⟩

/-- Article without a content field. -/
def c4artB : Article := ⟨[("title", .s "Plain")], none⟩

/-- Environment whose articles endpoint serves the two C4 articles for the
`news` blog. -/
def c4env : ScrapeEnv :=
  { c1env with
    articlesJson := fun h => if h = "news" then .ok (some [c4artA, c4artB]) else .error () }

theorem c4_witness :
    fetchArticles c4env "news" = [processArticle c4artA, processArticle c4artB]
    ∧ (processArticle c4artA).content = none
    ∧ lookupField (processArticle c4artA).fields "summary" = some (.s "Hello world...")
    ∧ processArticle c4artB = c4artB := by
  have h := c4_summary_transform c4env "news" [c4artA, c4artB] rfl
  refine ⟨h.1, (h.2.1 c4artA _ rfl).1, ?_, h.2.2 c4artB rfl⟩
  have h2 := (h.2.1 c4artA [Elem.mk "div" "intro", Elem.mk "p" " Hello world "] rfl).2.1
  rw [h2]
  decide

/-- C9: an article whose content is non-empty but contains no paragraph
element gets summary exactly `"..."` (the empty first-paragraph text,
trimmed and truncated, with the marker appended unconditionally), and its
content field is still removed. -/
theorem c9_no_paragraph_summary (env : ScrapeEnv) (blogHandle : String)
    (articles : List Article)
    (hbody : env.articlesJson blogHandle = .ok (some articles))
    (a : Article) (ha : a ∈ articles) (elems : List Elem)
    (hc : a.content = some elems) (hnop : ∀ e ∈ elems, e.tag ≠ "p") :
    processArticle a ∈ fetchArticles env blogHandle
    ∧ (processArticle a).content = none
    ∧ lookupField (processArticle a).fields "summary" = some (.s "...") := by
  refine ⟨?_, ?_, ?_⟩
  · simp only [fetchArticles, hbody]
    exact List.mem_map_of_mem _ ha
  · unfold processArticle
    rw [hc]
  · unfold processArticle
    rw [hc]
    rw [lookupField_setField, if_pos rfl, firstPText_eq_empty elems hnop]
    decide

/-- Article whose content has elements but no paragraph. -/
def c9art : Article := ⟨[("title", .s "NoPara")], some [⟨"div", "only a div"⟩]⟩

/-- Environment whose articles endpoint serves `c9art`. -/
def c9env : ScrapeEnv :=
  { c1env with articlesJson := fun _ => .ok (some [c9art]) }

theorem c9_witness :
    processArticle c9art ∈ fetchArticles c9env "news"
    ∧ (processArticle c9art).content = none
    ∧ lookupField (processArticle c9art).fields "summary" = some (.s "...") :=
  c9_no_paragraph_summary c9env "news" [c9art] rfl c9art (by decide)
    [⟨"div", "only a div"⟩] rfl (by decide)

/-- Homepage whose raw HTML is exactly the Facebook URL of the C7 claim
and contains no other platform pattern. -/
def c7page : Page :=
  { titleText := "", ogSiteName := none, ogImage := none, headerImgSrc := none
    faviconHref := none, footerAddressText := none, footerText := ""
    addressRegexMatch := none, emailMatch := none, phoneMatch := none
    rawHtml := "https://www.facebook.com/mystore", anchors := [] }

/-- Environment serving `c7page` as the homepage. -/
def c7env : ScrapeEnv := { c1env with homepage := .ok c7page }

/-- C7 counterexample: for a homepage containing
`https://www.facebook.com/mystore` and no other platform pattern, the
stored social link is `https://facebook.com/mystore` — the regex match
starts at `facebook.com/`, so the `www.` prefix and the original scheme
are dropped and the claimed value `https://www.facebook.com/mystore` is
not what the code returns. -/
theorem c7_cex :
    strContains c7page.rawHtml "https://www.facebook.com/mystore" = true
    ∧ (fetchStoreInfo "https://s.example" c7env).socialLinks
        = [("facebook", "https://facebook.com/mystore")]
    ∧ ("https://facebook.com/mystore" : String) ≠ "https://www.facebook.com/mystore" := by
  decide

/-- C7 amended: when the homepage HTML has a facebook-pattern match and no
match for the other five platforms, `socialLinks` holds exactly one entry,
key `facebook`, whose value is the matched substring — which begins at the
platform domain `facebook.com/`, so any scheme or `www.` prefix in the page
is not part of it — prefixed with `https://` when the match does not start
with `http`. -/
theorem c7_social_links_first_match (storeUrl : String) (env : ScrapeEnv)
    (page : Page) (m : String)
    (hp : env.homepage = .ok page)
    (hfb : scanMatch "facebook.com/".toList page.rawHtml.toList = some m)
    (hig : scanMatch "instagram.com/".toList page.rawHtml.toList = none)
    (htw : scanMatch "twitter.com/".toList page.rawHtml.toList = none)
    (hpin : scanMatch "pinterest.com/".toList page.rawHtml.toList = none)
    (hyt : scanMatch "youtube.com/".toList page.rawHtml.toList = none)
    (htt : scanMatch "tiktok.com/@".toList page.rawHtml.toList = none) :
    (fetchStoreInfo storeUrl env).socialLinks
      = [("facebook", if strStartsWith m "http" then m else "https://" ++ m)] := by
  have hsl : (fetchStoreInfo storeUrl env).socialLinks
      = extractSocialLinks page.rawHtml := by
    simp [fetchStoreInfo, hp]
  rw [hsl]
  unfold extractSocialLinks socialPlatforms
  simp only [List.foldl]
  rw [hfb, hig, htw, hpin, hyt, htt]
  simp

theorem c7_witness :
    (fetchStoreInfo "https://s.example" c7env).socialLinks
      = [("facebook", "https://facebook.com/mystore")] := by
  have h := c7_social_links_first_match "https://s.example" c7env c7page
    "facebook.com/mystore" rfl (by decide) (by decide) (by decide) (by decide)
    (by decide) (by decide)
  rw [h]
  decide

/-- C5 counterexample: on a page whose two anchors both yield handle
`sale`, where the first has empty visible text, the single returned entry
takes its title from the second anchor (and its synthetic id is `"1"`,
the second anchor's index) — not from the first anchor in document order
as the claim states. -/
theorem c5_cex :
    collectionsFromHtml "https://shop.example"
        [⟨"/collections/sale", ""⟩, ⟨"/collections/sale", "Sale"⟩]
      = [[("id", .s "1"), ("handle", .s "sale"), ("title", .s "Sale"),
          ("url", .s "https://shop.example/collections/sale")]]
    ∧ jsTrim (Anchor.mk "/collections/sale" "").text = ""
    ∧ ("Sale" : String) ≠ "" := by
  decide

/-- C5 amended: in the HTML-fallback paths of `fetchCollections` and
`fetchBlogs`, for every handle the returned list contains at most one
entry, namely (when any exists) the record of the first anchor in document
order that passes the href filters, yields that handle, and has non-empty
trimmed visible text — so an anchor with empty visible text does not count
as an occurrence, and when every anchor for a handle has empty text there
is no entry at all. -/
theorem c5_first_qualifying_anchor (u : String) (anchors : List Anchor)
    (h : String) :
    entriesFor h (collectionsFromHtml u anchors)
      = (firstWithKey h (candsFrom (collCand u) 0
          (anchors.filter (fun a => strContains a.href "/collections/")))).toList
    ∧ entriesFor h (blogsFromHtml u anchors)
      = (firstWithKey h (candsFrom (blogCand u) 0
          (anchors.filter (fun a => strContains a.href "/blogs/")))).toList :=
  ⟨entriesFor_collectionsFromHtml u anchors h, entriesFor_blogsFromHtml u anchors h⟩

/-- C6 counterexample: an anchor for the collection `alligator` — whose
handle is not `all`, whose href contains no `/products/`, and whose visible
text is non-empty — produces no entry, because the code's catch-all filter
is the substring test `href.includes('/collections/all')`. -/
theorem c6_cex :
    collHandleOf "/collections/alligator" = "alligator"
    ∧ ("alligator" : String) ≠ "all"
    ∧ strContains "/collections/alligator" "/products/" = false
    ∧ jsTrim (Anchor.mk "/collections/alligator" "Alligator").text ≠ ""
    ∧ collectionsFromHtml "https://shop.example"
        [⟨"/collections/alligator", "Alligator"⟩] = [] := by
  decide

/-- C6 amended: an anchor of the collections index page produces an entry
(given non-empty visible text, a non-empty derived handle, and an unseen
handle) unless its href contains `/products/` or contains the substring
`/collections/all`; the latter is a plain substring test, so it excludes
not only the single catch-all `all` collection but every href in which
`/collections/all` occurs — in particular every collection whose handle
begins with `all`. -/
theorem c6_catchall_substring_exclusion (u : String) (acc : List Rec)
    (i : Nat) (a : Anchor) :
    (strContains a.href "/products/" = true ∨
        strContains a.href "/collections/all" = true →
      collStep u acc i a = acc)
    ∧ (a.href ≠ "" →
       strContains a.href "/products/" = false →
       strContains a.href "/collections/all" = false →
       collHandleOf a.href ≠ "" →
       jsTrim a.text ≠ "" →
       seenHandle acc (collHandleOf a.href) = false →
       collStep u acc i a
         = acc ++ [collRec u i (collHandleOf a.href) (jsTrim a.text) a.href]) := by
  constructor
  · intro hex
    unfold collStep
    cases hex with
    | inl hprod => simp [hprod]
    | inr hall => simp [hall]
  · intro h1 h2 h3 h4 h5 h6
    have hfind : acc.find? (fun c =>
        decide (lookupField c "handle" = some (.s (collHandleOf a.href)))) = none := by
      cases hf : acc.find? (fun c =>
          decide (lookupField c "handle" = some (.s (collHandleOf a.href)))) with
      | none => rfl
      | some c =>
          exfalso
          unfold seenHandle at h6
          rw [hf] at h6
          simp at h6
    unfold collStep
    simp [h1, h2, h3, h4, h5, hfind]

theorem c6_witness :
    collStep "https://shop.example" [] 0 ⟨"/collections/sale", "Sale"⟩
      = [collRec "https://shop.example" 0 "sale" "Sale" "/collections/sale"] := by
  have h := (c6_catchall_substring_exclusion "https://shop.example" [] 0
      ⟨"/collections/sale", "Sale"⟩).2
    (by decide) (by decide) (by decide) (by decide) (by decide) (by decide)
  rw [h]
  decide

/-- C8: the aggregate pairs each blog of `fetchBlogs` (in discovery order)
with exactly the article list `fetchArticles` returns for its handle, and
the flat `articles` field is the concatenation of those per-blog lists in
the same order; consequently every article appearing under a blog also
appears in the flat list (the duplication is intentional). -/
theorem c8_articles_flattened (storeUrl : String) (env : ScrapeEnv) :
    (scrapeStore storeUrl env).blogs.map Prod.fst = fetchBlogs storeUrl env
    ∧ (∀ p, p ∈ (scrapeStore storeUrl env).blogs →
        p.2 = fetchArticles env (handleOf p.1))
    ∧ (scrapeStore storeUrl env).articles
        = ((scrapeStore storeUrl env).blogs.map Prod.snd).flatten
    ∧ ∀ p, p ∈ (scrapeStore storeUrl env).blogs →
        ∀ a, a ∈ p.2 → a ∈ (scrapeStore storeUrl env).articles := by
  refine ⟨?_, ?_, ?_, ?_⟩
  · simp only [scrapeStore]
    rw [List.map_map]
    simp [Function.comp_def]
  · intro p hp
    simp only [scrapeStore, List.mem_map] at hp
    obtain ⟨b, hb, rfl⟩ := hp
    rfl
  · simp only [scrapeStore]
    rw [foldl_append_articles]
    simp
  · intro p hp a ha
    simp only [scrapeStore] at hp ⊢
    rw [foldl_append_articles]
    simp only [List.nil_append, List.mem_flatten]
    exact ⟨p.2, List.mem_map_of_mem Prod.snd hp, ha⟩

/-- First blog of the C8 witness environment. -/
def c8blog1 : Rec := [("handle", .s "news"), ("title", .s "News")]

/-- Second blog of the C8 witness environment. -/
def c8blog2 : Rec := [("handle", .s "tips"), ("title", .s "Tips")]

/-- Sole article of the first blog. -/
def c8art1 : Article := ⟨[("title", .s "A1")], none⟩

/-- Sole article of the second blog. -/
def c8art2 : Article := ⟨[("title", .s "A2")], none⟩

/-- Environment with two blogs, each serving one article. -/
def c8env : ScrapeEnv :=
  { c1env with
    blogsJson := .ok (some [c8blog1, c8blog2])
    articlesJson := fun h =>
      if h = "news" then .ok (some [c8art1]) else .ok (some [c8art2]) }

theorem c8_witness :
    c8art1 ∈ (scrapeStore "https://s.example" c8env).articles
    ∧ (scrapeStore "https://s.example" c8env).articles = [c8art1, c8art2] := by
  refine ⟨?_, by decide⟩
  exact (c8_articles_flattened "https://s.example" c8env).2.2.2
    (c8blog1, [c8art1]) (by decide) c8art1 (by decide)

/-- A collections-fallback anchor with empty trimmed text never becomes a
candidate. -/
theorem collCand_none_of_empty_text (u : String) (i : Nat) (a : Anchor)
    (ht : jsTrim a.text = "") : collCand u i a = none := by
  unfold collCand
  simp [ht]

/-- A blogs-fallback anchor with empty trimmed text never becomes a
candidate. -/
theorem blogCand_none_of_empty_text (u : String) (i : Nat) (a : Anchor)
    (ht : jsTrim a.text = "") : blogCand u i a = none := by
  unfold blogCand
  simp [ht]

/-- C10: in both HTML-fallback paths an anchor with empty visible text is
never recorded; hence when every earlier anchor in the selected scan fails
to yield a given handle (for instance because its text is empty) and a
later anchor yields it with non-empty text, the single entry for that
handle is built from that later anchor, with its synthetic id derived from
the later anchor's index in the full anchor scan — so ids need not be
consecutive. -/
theorem c10_empty_text_anchors_skipped (u : String) :
    (∀ (acc : List Rec) (i : Nat) (a : Anchor), jsTrim a.text = "" →
        collStep u acc i a = acc ∧ blogStep u acc i a = acc)
    ∧ (∀ (anchors : List Anchor) (h : String) (P : List Anchor) (c : Anchor)
        (T : List Anchor),
        anchors.filter (fun a => strContains a.href "/collections/") = P ++ c :: T →
        (∀ a ∈ P, collKey a ≠ some h) →
        collKey c = some h →
        entriesFor h (collectionsFromHtml u anchors)
          = [collRec u P.length h (jsTrim c.text) c.href]
        ∧ lookupField (collRec u P.length h (jsTrim c.text) c.href) "id"
            = some (.s (toString P.length)))
    ∧ (∀ (anchors : List Anchor) (h : String) (P : List Anchor) (c : Anchor)
        (T : List Anchor),
        anchors.filter (fun a => strContains a.href "/blogs/") = P ++ c :: T →
        (∀ a ∈ P, blogKey a ≠ some h) →
        blogKey c = some h →
        entriesFor h (blogsFromHtml u anchors)
          = [blogRec u P.length h (jsTrim c.text) c.href]
        ∧ lookupField (blogRec u P.length h (jsTrim c.text) c.href) "id"
            = some (.s ("blog_" ++ toString P.length))) := by
  refine ⟨?_, ?_, ?_⟩
  · intro acc i a ht
    constructor
    · rw [collStep_eq, collCand_none_of_empty_text u i a ht]
    · rw [blogStep_eq, blogCand_none_of_empty_text u i a ht]
  · intro anchors h P c T hfilter hP hkey
    refine ⟨?_, lookupField_collRec_id u P.length h (jsTrim c.text) c.href⟩
    rw [entriesFor_collectionsFromHtml u anchors h, hfilter]
    rw [candsFrom_append, firstWithKey_append]
    rw [firstWithKey_candsFrom_none (collCand u) collKey (collCand_fst u) h P 0 hP]
    simp only [candsFrom]
    rw [collCand_of_key u (0 + P.length) c h hkey]
    simp [firstWithKey, Nat.zero_add]
  · intro anchors h P c T hfilter hP hkey
    refine ⟨?_, lookupField_blogRec_id u P.length h (jsTrim c.text) c.href⟩
    rw [entriesFor_blogsFromHtml u anchors h, hfilter]
    rw [candsFrom_append, firstWithKey_append]
    rw [firstWithKey_candsFrom_none (blogCand u) blogKey (blogCand_fst u) h P 0 hP]
    simp only [candsFrom]
    rw [blogCand_of_key u (0 + P.length) c h hkey]
    simp [firstWithKey, Nat.zero_add]

theorem c10_witness :
    entriesFor "sale" (collectionsFromHtml "https://s.example"
        [⟨"/collections/sale", " "⟩, ⟨"/collections/sale", "Sale"⟩])
      = [collRec "https://s.example" 1 "sale" "Sale" "/collections/sale"]
    ∧ lookupField (collRec "https://s.example" 1 "sale" "Sale" "/collections/sale")
        "id" = some (.s "1") := by
  have h := (c10_empty_text_anchors_skipped "https://s.example").2.1
    [⟨"/collections/sale", " "⟩, ⟨"/collections/sale", "Sale"⟩] "sale"
    [⟨"/collections/sale", " "⟩] ⟨"/collections/sale", "Sale"⟩ []
    (by decide) (by decide) (by decide)
  refine ⟨?_, by decide⟩
  rw [h.1]
  decide
